import Mathlib

/-!
Verification of the folder-path resolver of the Grafana dashboard exporter
(`src/grafana_migration/grafana_dashboard_exporter.py`).

The resolver is the closure `get_full_path` produced by `build_folder_map`:

  folders = {item['uid']: item for item in search_results if item.get('type') == 'dash-folder'}

  def get_full_path(folder_uid):
      parts = []
      current_uid = folder_uid
      while current_uid and current_uid in folders:
          folder = folders[current_uid]
          parts.insert(0, folder['title'])
          current_uid = folder.get('parentUid')
      return os.path.join(DIR, *parts) if parts else DIR

The embedding below renders the folder dictionary as an association list with
first-match lookup, an absent key or an absent `parentUid` field as `none`,
and the `while` loop as a fuel-indexed recursion: the loop body has no exit of
its own, so a result of `none` means the loop is still running after `fuel`
iterations (on cycle-free data a large enough fuel always returns `some`).
Python's truthiness test `while current_uid and ...` is false for `None` and
for the empty string, so the embedding stops on both.
-/

/-- One folder record of the Grafana search listing, holding exactly the
fields `get_full_path` reads: the item's `title` and its optional
`parentUid`. -/
structure FolderRecord where
  title : String
  parentUid : Option String
deriving DecidableEq

/-- The folder dictionary built by `build_folder_map`: folder uid to record,
rendered as an association list with first-match lookup. -/
abbrev Folders := List (String × FolderRecord)

/-- The `while` loop of `get_full_path`. State: `current` is `current_uid`
(`none` for Python `None`) and `parts` the accumulated title list;
`parts.insert(0, title)` is prepending. The loop runs while `current_uid`
is truthy (non-`None` and non-empty) and present in `folders`; `none` as
result means the fuel ran out with the loop still going. -/
def getFullPathLoop (folders : Folders) : Nat → Option String → List String → Option (List String)
  | 0, _, _ => none
  | fuel + 1, current, parts =>
    match current with
    | none => some parts
    | some uid =>
      if uid = "" then some parts
      else
        match List.lookup uid folders with
        | none => some parts
        | some folder => getFullPathLoop folders fuel folder.parentUid (folder.title :: parts)

/-- Model of `os.path.join(base, *parts)` for relative, non-empty path
components: base/p1/.../pn. -/
def osJoin (base : String) (parts : List String) : String :=
  parts.foldl (fun a p => a ++ "/" ++ p) base

/-- The whole of `get_full_path`: run the walk, then
`os.path.join(DIR, *parts) if parts else DIR`. `none` propagates fuel
exhaustion (a non-terminating walk never returns a path). -/
def get_full_path (dir : String) (folders : Folders) (fuel : Nat) (uid : Option String) : Option String :=
  match getFullPathLoop folders fuel uid [] with
  | none => none
  | some [] => some dir
  | some parts => some (osJoin dir parts)

/-- Modelled from the spec, section 4.1 step 2, word for word: start an empty
sequence with `current = folderId`; while `current` is non-null and present
in the mapping, prepend the folder's title to the sequence and set `current`
to that folder's `parentId`; stop when `current` is null or not found.
Written without an accumulator: the result for `current` is the result for
its parent with the folder's own title appended at the end, which is the
same sequence the prepend-as-you-ascend walk yields. Fuel-indexed exactly
like `getFullPathLoop` (one unit per loop test). -/
def resolveSpec (folders : Folders) : Nat → Option String → Option (List String)
  | 0, _ => none
  | _ + 1, none => some []
  | fuel + 1, some uid =>
    match List.lookup uid folders with
    | none => some []
    | some r => (resolveSpec folders fuel r.parentUid).map (fun t => t ++ [r.title])

/-- The spec algorithm amended with the one clause the code adds: the walk
also stops when `current` is the empty string (Python truthiness of
`while current_uid and ...`). -/
def resolveSpecAmended (folders : Folders) : Nat → Option String → Option (List String)
  | 0, _ => none
  | _ + 1, none => some []
  | fuel + 1, some uid =>
    if uid = "" then some []
    else
      match List.lookup uid folders with
      | none => some []
      | some r => (resolveSpecAmended folders fuel r.parentUid).map (fun t => t ++ [r.title])

lemma getFullPathLoop_eq_resolveSpecAmended_append (folders : Folders) :
    ∀ (fuel : Nat) (c : Option String) (acc : List String),
      getFullPathLoop folders fuel c acc = (resolveSpecAmended folders fuel c).map (fun t => t ++ acc) := by
  intro fuel
  induction fuel with
  | zero => intro c acc; rfl
  | succ n ih =>
    intro c acc
    cases c with
    | none => simp [getFullPathLoop, resolveSpecAmended]
    | some uid =>
      by_cases h : uid = ""
      · simp [getFullPathLoop, resolveSpecAmended, h]
      · cases hl : List.lookup uid folders with
        | none => simp [getFullPathLoop, resolveSpecAmended, h, hl]
        | some r =>
          simp only [getFullPathLoop, resolveSpecAmended, h, if_neg h, hl]
          rw [ih]
          cases resolveSpecAmended folders n r.parentUid with
          | none => rfl
          | some t => simp [List.append_assoc]

/-- C1. The walk of `get_full_path` follows the spec algorithm amended with
the empty-string stop: for every mapping, fuel and starting id, the loop
started on an empty accumulator computes exactly the sequence of the amended
spec recursion. -/
theorem getFullPath_follows_amended_algorithm :
    ∀ (folders : Folders) (fuel : Nat) (c : Option String),
      getFullPathLoop folders fuel c [] = resolveSpecAmended folders fuel c := by
  intro folders fuel c
  rw [getFullPathLoop_eq_resolveSpecAmended_append]
  cases resolveSpecAmended folders fuel c with
  | none => rfl
  | some t => simp

/-- C1, counterexample. The claim as stated fails on the mapping that binds
the empty-string uid: the spec walk ("while current is non-null and present")
visits it and returns its title, but the code's truthiness test stops at the
empty string and returns the empty sequence. -/
theorem getFullPath_empty_uid_counterexample :
    getFullPathLoop [("", ⟨"T", none⟩)] 2 (some "") [] = some [] ∧
    resolveSpec [("", ⟨"T", none⟩)] 2 (some "") = some ["T"] ∧
    (some ([] : List String) ≠ some ["T"]) := by
  refine ⟨rfl, rfl, ?_⟩
  simp

/-- The 2-cycle of the spec example: folder A has parent B and folder B has
parent A. -/
def cycleFolders : Folders := [("A", ⟨"A", some "B"⟩), ("B", ⟨"B", some "A"⟩)]

lemma cycle_walk_no_exit :
    ∀ (fuel : Nat) (acc : List String),
      getFullPathLoop cycleFolders fuel (some "A") acc = none ∧
      getFullPathLoop cycleFolders fuel (some "B") acc = none := by
  intro fuel
  induction fuel with
  | zero => intro acc; exact ⟨rfl, rfl⟩
  | succ n ih =>
    intro acc
    constructor
    · show getFullPathLoop cycleFolders n (some "B") ("A" :: acc) = none
      exact (ih ("A" :: acc)).2
    · show getFullPathLoop cycleFolders n (some "A") ("B" :: acc) = none
      exact (ih ("B" :: acc)).1

/-- C2. On the 2-cycle A(parent=B), B(parent=A), the walk from "A" never
terminates: for every iteration bound the loop is still running, so no
result — and in particular no CycleDetected condition — is ever produced.
The source has no visited-set or depth bound at all. -/
theorem cycle_walk_never_terminates :
    ∀ (fuel : Nat) (acc : List String),
      getFullPathLoop cycleFolders fuel (some "A") acc = none :=
  fun fuel acc => (cycle_walk_no_exit fuel acc).1

/-- C3. `get_full_path` does not terminate on every input: on the cyclic
mapping A(parent=B), B(parent=A), resolving "A" exhausts every fuel bound,
so the Python loop runs forever. -/
theorem getFullPath_diverges_on_cycle :
    ∀ (dir : String) (fuel : Nat),
      get_full_path dir cycleFolders fuel (some "A") = none := by
  intro dir fuel
  unfold get_full_path
  rw [(cycle_walk_no_exit fuel []).1]

/-- The three-record chain of the spec example: A at the root, B under A,
C under B. -/
def chainFolders : Folders := [("A", ⟨"A", none⟩), ("B", ⟨"B", some "A"⟩), ("C", ⟨"C", some "B"⟩)]

/-- C4, counterexample. On the chain A(parent=null) <- B(parent=A) <-
C(parent=B) the code resolves "C" to ["A", "B", "C"], not to ["A", "B"]: the
walk starts at the queried folder itself and prepends its title first. -/
theorem resolve_chain_counterexample :
    getFullPathLoop chainFolders 4 (some "C") [] = some ["A", "B", "C"] ∧
    some (["A", "B", "C"] : List String) ≠ some ["A", "B"] := by
  refine ⟨rfl, ?_⟩
  simp

/-- C4, amended. On the chain, resolving "C" returns ["A", "B", "C"] — the
sequence includes the queried folder's own title — while ["A", "B"] is the
result of resolving "B", the path of a leaf item stored in folder B. -/
theorem resolve_chain_amended :
    getFullPathLoop chainFolders 4 (some "C") [] = some ["A", "B", "C"] ∧
    getFullPathLoop chainFolders 4 (some "B") [] = some ["A", "B"] :=
  ⟨rfl, rfl⟩

/-- C5. Whenever the walk reaches an id that is absent from the mapping, the
membership test of the `while` loop fails, the loop exits at that point and
the titles accumulated so far are returned unchanged. -/
theorem dangling_parent_terminates_walk :
    ∀ (folders : Folders) (x : String) (acc : List String) (fuel : Nat),
      List.lookup x folders = none →
      getFullPathLoop folders (fuel + 1) (some x) acc = some acc := by
  intro folders x acc fuel h
  by_cases he : x = ""
  · simp [getFullPathLoop, he]
  · simp [getFullPathLoop, he, h]

/-- A record whose parent uid "X" is bound to no record. -/
def danglingFolders : Folders := [("D", ⟨"D", some "X"⟩)]

theorem dangling_parent_terminates_walk_witness :
    List.lookup "X" danglingFolders = none ∧
    getFullPathLoop danglingFolders 1 (some "X") ["D"] = some ["D"] :=
  ⟨rfl, dangling_parent_terminates_walk danglingFolders "X" ["D"] 0 rfl⟩

/-- Depth of a node in the forest defined by the parent uids: null is depth
0, a folder is one deeper than its parent, and the chain is cut exactly
where the walk cuts it (empty or absent uid). Fuel-indexed like the walk. -/
def folderDepth (folders : Folders) : Nat → Option String → Option Nat
  | 0, _ => none
  | _ + 1, none => some 0
  | fuel + 1, some uid =>
    if uid = "" then some 0
    else
      match List.lookup uid folders with
      | none => some 0
      | some r => (folderDepth folders fuel r.parentUid).map (fun d => d + 1)

lemma loop_length_depth_aux (folders : Folders) :
    ∀ (fuel : Nat) (c : Option String) (acc parts : List String),
      getFullPathLoop folders fuel c acc = some parts →
      ∃ pre, parts = pre ++ acc ∧ folderDepth folders fuel c = some pre.length := by
  intro fuel
  induction fuel with
  | zero => intro c acc parts h; exact absurd h (by simp [getFullPathLoop])
  | succ n ih =>
    intro c acc parts h
    cases c with
    | none =>
      refine ⟨[], ?_, rfl⟩
      simpa [getFullPathLoop] using h.symm
    | some uid =>
      by_cases he : uid = ""
      · refine ⟨[], ?_, by simp [folderDepth, he]⟩
        rw [getFullPathLoop, he] at h
        simpa using h.symm
      · cases hl : List.lookup uid folders with
        | none =>
          refine ⟨[], ?_, by simp [folderDepth, he, hl]⟩
          rw [getFullPathLoop] at h
          simp [he, hl] at h
          exact h.symm
        | some r =>
          rw [getFullPathLoop] at h
          simp only [he, if_neg he, hl] at h
          obtain ⟨pre, hp, hd⟩ := ih r.parentUid (r.title :: acc) parts h
          refine ⟨pre ++ [r.title], ?_, ?_⟩
          · simp [hp, List.append_assoc]
          · simp [folderDepth, he, hl, hd]

/-- C6. When the walk completes (which on a cycle-free hierarchy it does for
every sufficiently large fuel), the returned sequence has length equal to
the queried node's depth in the parent-pointer forest; a null folder id has
depth 0 and yields the empty sequence. -/
theorem resolve_length_eq_depth :
    ∀ (folders : Folders) (fuel : Nat) (c : Option String) (parts : List String),
      getFullPathLoop folders fuel c [] = some parts →
      folderDepth folders fuel c = some parts.length := by
  intro folders fuel c parts h
  obtain ⟨pre, hp, hd⟩ := loop_length_depth_aux folders fuel c [] parts h
  rw [hp]
  simpa using hd

theorem resolve_length_eq_depth_witness :
    getFullPathLoop chainFolders 3 (some "B") [] = some ["A", "B"] ∧
    folderDepth chainFolders 3 (some "B") = some 2 :=
  ⟨rfl, resolve_length_eq_depth chainFolders 3 (some "B") ["A", "B"] rfl⟩

/-- C7. Resolving null returns the empty sequence for every mapping: with
`current_uid = None` the while condition fails at once, so `parts` stays
empty and the returned path is the bare output directory. -/
theorem resolve_null_returns_empty :
    ∀ (folders : Folders) (fuel : Nat) (dir : String),
      getFullPathLoop folders (fuel + 1) none [] = some [] ∧
      get_full_path dir folders (fuel + 1) none = some dir :=
  fun _ _ _ => ⟨rfl, rfl⟩

/-- The full state the loop of `get_full_path` can touch: the captured
`folders` dictionary and the two locals `current_uid` and `parts`. -/
structure WalkState where
  folders : Folders
  current : Option String
  parts : List String

/-- One iteration of the `while` loop as a state transformer: either the
condition fails and the accumulated parts are returned (`Sum.inr`), or the
body runs once (`Sum.inl`). The body only reads `folders`; it writes the
locals alone. -/
def stepWalk (s : WalkState) : WalkState ⊕ List String :=
  match s.current with
  | none => Sum.inr s.parts
  | some uid =>
    if uid = "" then Sum.inr s.parts
    else
      match List.lookup uid s.folders with
      | none => Sum.inr s.parts
      | some r => Sum.inl ⟨s.folders, r.parentUid, r.title :: s.parts⟩

/-- Iterate `stepWalk` up to `fuel` times; on exit return the result
together with the mapping as the loop leaves it. -/
def runWalk : Nat → WalkState → Option (List String × Folders)
  | 0, _ => none
  | fuel + 1, s =>
    match stepWalk s with
    | Sum.inr out => some (out, s.folders)
    | Sum.inl t => runWalk fuel t

lemma stepWalk_preserves_folders :
    ∀ (s t : WalkState), stepWalk s = Sum.inl t → t.folders = s.folders := by
  intro s t h
  unfold stepWalk at h
  split at h
  · exact absurd h (by simp)
  · split at h
    · exact absurd h (by simp)
    · split at h
      · exact absurd h (by simp)
      · cases h
        rfl

lemma runWalk_preserves_folders :
    ∀ (fuel : Nat) (s : WalkState) (out : List String) (f : Folders),
      runWalk fuel s = some (out, f) → f = s.folders := by
  intro fuel
  induction fuel with
  | zero => intro s out f h; exact absurd h (by simp [runWalk])
  | succ n ih =>
    intro s out f h
    rw [runWalk] at h
    split at h
    · cases h; rfl
    · rename_i t ht
      rw [ih t out f h]
      exact stepWalk_preserves_folders s t ht

/-- C8. The resolver is pure: a completed run leaves the folder mapping
exactly as it found it, and a second run started on the post-call mapping
with the same id returns the identical result. -/
theorem resolve_pure_and_idempotent :
    ∀ (fuel : Nat) (folders : Folders) (uid : Option String) (out : List String) (after : Folders),
      runWalk fuel ⟨folders, uid, []⟩ = some (out, after) →
      after = folders ∧ runWalk fuel ⟨after, uid, []⟩ = some (out, after) := by
  intro fuel folders uid out after h
  have hf : after = folders := runWalk_preserves_folders fuel _ out after h
  subst hf
  exact ⟨rfl, h⟩

theorem resolve_pure_and_idempotent_witness :
    runWalk 4 ⟨chainFolders, some "B", []⟩ = some (["A", "B"], chainFolders) ∧
    runWalk 4 ⟨chainFolders, some "B", []⟩ = some (["A", "B"], chainFolders) ∧
    chainFolders = chainFolders :=
  ⟨rfl,
   (resolve_pure_and_idempotent 4 chainFolders (some "B") ["A", "B"] chainFolders rfl).2,
   (resolve_pure_and_idempotent 4 chainFolders (some "B") ["A", "B"] chainFolders rfl).1⟩

lemma runWalk_eq_getFullPathLoop :
    ∀ (fuel : Nat) (folders : Folders) (c : Option String) (acc : List String),
      runWalk fuel ⟨folders, c, acc⟩ =
        (getFullPathLoop folders fuel c acc).map (fun out => (out, folders)) := by
  intro fuel
  induction fuel with
  | zero => intro folders c acc; rfl
  | succ n ih =>
    intro folders c acc
    cases c with
    | none => rfl
    | some uid =>
      by_cases he : uid = ""
      · subst he; rfl
      · cases hl : List.lookup uid folders with
        | none =>
          have hs : stepWalk ⟨folders, some uid, acc⟩ = Sum.inr acc := by
            simp [stepWalk, he, hl]
          rw [runWalk, hs, getFullPathLoop]
          simp [he, hl]
        | some r =>
          have hs : stepWalk ⟨folders, some uid, acc⟩ = Sum.inl ⟨folders, r.parentUid, r.title :: acc⟩ := by
            simp [stepWalk, he, hl]
          rw [runWalk, hs, getFullPathLoop]
          simp only [he, if_neg he, hl]
          exact ih folders r.parentUid (r.title :: acc)

/-- Python `title.replace(c, '')` for a single character pattern removes
every occurrence of that character. -/
def removeChar (c : Char) (s : String) : String :=
  String.mk (s.toList.filter (fun a => a != c))

/-- The file-name sanitisation of `export_dashboards`:
`data['title'].replace(' ', '').replace('/', '').replace(':', '')`. -/
def sanitizeName (title : String) : String :=
  removeChar ':' (removeChar '/' (removeChar ' ' title))

/-- One dashboard as `export_dashboards` reads it: the title used to build
the file name, and the `folderUid` of the search record used to build the
directory. -/
structure DashRecord where
  title : String
  folderUid : Option String

/-- The file path `export_dashboards` opens for writing for one dashboard:
`os.path.join(get_full_path(folderUid), name + ".json")`. -/
def dashFilePath (dir : String) (folders : Folders) (fuel : Nat) (d : DashRecord) : Option String :=
  (get_full_path dir folders fuel d.folderUid).map
    (fun p => p ++ "/" ++ sanitizeName d.title ++ ".json")

/-- The sequence of paths the export loop writes to, in order: one
`open(..., 'w')` per dashboard, with no check against paths already
written. -/
def exportWritePaths (dir : String) (folders : Folders) (fuel : Nat) (ds : List DashRecord) : List (Option String) :=
  ds.map (dashFilePath dir folders fuel)

/-- C9. Two distinct dashboards whose sanitised titles coincide in the same
folder are both written to the same path, the second write after the first:
the export performs no collision detection, so the first file is silently
overwritten. -/
theorem export_overwrites_on_name_collision :
    dashFilePath "backup" [] 1 ⟨"My Dash", none⟩ = some "backup/MyDash.json" ∧
    dashFilePath "backup" [] 1 ⟨"MyDash", none⟩ = some "backup/MyDash.json" ∧
    ("My Dash" : String) ≠ "MyDash" ∧
    exportWritePaths "backup" [] 1 [⟨"My Dash", none⟩, ⟨"MyDash", none⟩] =
      [some "backup/MyDash.json", some "backup/MyDash.json"] := by
  refine ⟨rfl, rfl, ?_, rfl⟩
  simp

/-- C10. A non-null queried id that is absent from the mapping fails the
membership test on the very first loop check, so the walk returns the empty
sequence and the synthesized path is the bare output directory — the very
result `get_full_path(None)` yields. -/
theorem unknown_folder_id_maps_to_root_dir :
    ∀ (dir : String) (folders : Folders) (fuel : Nat) (uid : String),
      List.lookup uid folders = none →
      getFullPathLoop folders (fuel + 1) (some uid) [] = some [] ∧
      get_full_path dir folders (fuel + 1) (some uid) = some dir ∧
      get_full_path dir folders (fuel + 1) (some uid) = get_full_path dir folders (fuel + 1) none := by
  intro dir folders fuel uid h
  have hw : getFullPathLoop folders (fuel + 1) (some uid) [] = some [] :=
    dangling_parent_terminates_walk folders uid [] fuel h
  refine ⟨hw, ?_, ?_⟩
  · unfold get_full_path
    rw [hw]
  · unfold get_full_path
    rw [hw, show getFullPathLoop folders (fuel + 1) none [] = some ([] : List String) from rfl]

theorem unknown_folder_id_maps_to_root_dir_witness :
    List.lookup "Z" chainFolders = none ∧
    get_full_path "backup" chainFolders 1 (some "Z") = some "backup" ∧
    get_full_path "backup" chainFolders 1 (some "Z") = get_full_path "backup" chainFolders 1 none :=
  ⟨rfl,
   (unknown_folder_id_maps_to_root_dir "backup" chainFolders 0 "Z" rfl).2.1,
   (unknown_folder_id_maps_to_root_dir "backup" chainFolders 0 "Z" rfl).2.2⟩
